import Mathlib

/-!
Verification model of the FlatUI immediate-mode GUI core (`src/flatui.cpp`).

The C++ code is shallowly embedded: `mathfu::vec2i` becomes `Vec2i` over `Int`,
the per-frame `InternalState` (which *is-a* `Group` in the C++ class hierarchy)
becomes the record `UIState` holding the current group, the group stack, the
element sequence and the render cursor, and the cross-frame `PersistentState`
becomes `Persistent`.  User-supplied `const char *` identity tokens are compared
by pointer equality in the C++ (`InternalState::EqualId`); in the model each
distinct token is a distinct `Nat`, so pointer equality becomes equality of
these token values (`kDummyId` stands for the `__null_id__` pointer and
`sentinelId` for the `__sentinel__` pointer, both distinct from all user ids).
External collaborators (renderer, font manager, input device polling) only
receive output or supply inputs; their calls are dropped and their inputs are
explicit parameters.
-/

namespace FlatUIModel

/-- Model of `mathfu::vec2i`: a pair of integers. -/
structure Vec2i where
  x : Int
  y : Int
deriving DecidableEq

instance : Add Vec2i := ⟨fun a b => ⟨a.x + b.x, a.y + b.y⟩⟩
instance : Sub Vec2i := ⟨fun a b => ⟨a.x - b.x, a.y - b.y⟩⟩

/-- The zero vector `mathfu::kZeros2i`. -/
def Vec2i.zero : Vec2i := ⟨0, 0⟩

/-- Componentwise maximum, `vec2i::Max`. -/
def Vec2i.max2 (a b : Vec2i) : Vec2i := ⟨max a.x b.x, max a.y b.y⟩

/-- Componentwise minimum, `vec2i::Min`. -/
def Vec2i.min2 (a b : Vec2i) : Vec2i := ⟨min a.x b.x, min a.y b.y⟩

/-- Scalar multiplication `vec2i * int`. -/
def Vec2i.smul (v : Vec2i) (k : Int) : Vec2i := ⟨v.x * k, v.y * k⟩

/-- Model of `mathfu::vec4i`, used for group margins. -/
structure Vec4i where
  x : Int
  y : Int
  z : Int
  w : Int
deriving DecidableEq

/-- The `.xy()` swizzle. -/
def Vec4i.xy (v : Vec4i) : Vec2i := ⟨v.x, v.y⟩

/-- The `.zw()` swizzle. -/
def Vec4i.zw (v : Vec4i) : Vec2i := ⟨v.z, v.w⟩

/-- The zero margin `mathfu::kZeros4i`. -/
def Vec4i.zero : Vec4i := ⟨0, 0, 0, 0⟩

/-- Layout direction of a group (`kDirHorizontal`, `kDirVertical`, `kDirOverlay`). -/
inductive Direction where
  | horizontal
  | vertical
  | overlay
deriving DecidableEq

/-- Cross-axis alignment (`kAlignTop = kAlignLeft`, `kAlignCenter`,
`kAlignBottom = kAlignRight`). -/
inductive Alignment where
  | topLeft
  | center
  | bottomRight
deriving DecidableEq

/-- Model of the `__null_id__` pointer `kDummyId`. -/
def kDummyId : Nat := 0

/-- Model of the `__sentinel__` id appended by `StartRenderPass`. -/
def sentinelId : Nat := 1

/-- `kPointerIndexInvalid`. -/
def kPointerIndexInvalid : Int := -1

/-- `kDragStartPoisitionInvalid` (sic, name as in the source constant). -/
def dragStartInvalid : Vec2i := ⟨-1, -1⟩

/-- Model of `InternalState::Element`: one record per widget instance per frame. -/
structure Element where
  size : Vec2i
  extra_size : Vec2i
  id : Nat
  interactive : Bool
deriving DecidableEq

instance : Inhabited Element := ⟨⟨Vec2i.zero, Vec2i.zero, 0, false⟩⟩

/-- The `Element(size, id)` constructor: `extra_size` starts at zero and
`interactive` at `false`. -/
def Element.init (size : Vec2i) (id : Nat) : Element :=
  ⟨size, Vec2i.zero, id, false⟩

/-- Model of the C++ `Group`: transient per-nesting-level layout state. -/
structure Group where
  direction : Direction
  align : Alignment
  spacing : Int
  size : Vec2i
  position : Vec2i
  element_idx : Nat
  margin : Vec4i
deriving DecidableEq

/-- The `Group(direction, align, spacing, element_idx)` constructor: size,
position and margin start at zero. -/
def Group.init (d : Direction) (a : Alignment) (sp : Int) (idx : Nat) : Group :=
  ⟨d, a, sp, Vec2i.zero, Vec2i.zero, idx, Vec4i.zero⟩

/-- `Group::Extend`: grow the group size by a new child's size, adding spacing
on the primary axis exactly when the accumulated primary size is nonzero
(the C++ condition is `size_.x() ? spacing_ : 0`, a truthiness test). -/
def Group.extend (g : Group) (extension : Vec2i) : Group :=
  match g.direction with
  | Direction.horizontal =>
      { g with size := ⟨g.size.x + extension.x + (if g.size.x ≠ 0 then g.spacing else 0),
                        max g.size.y extension.y⟩ }
  | Direction.vertical =>
      { g with size := ⟨max g.size.x extension.x,
                        g.size.y + extension.y + (if g.size.y ≠ 0 then g.spacing else 0)⟩ }
  | Direction.overlay =>
      { g with size := ⟨max g.size.x extension.x, max g.size.y extension.y⟩ }

/-- `InternalState::Advance`: move the render cursor past an element. -/
def Group.advance (g : Group) (size : Vec2i) : Group :=
  match g.direction with
  | Direction.horizontal => { g with position := g.position + ⟨size.x + g.spacing, 0⟩ }
  | Direction.vertical => { g with position := g.position + ⟨0, size.y + g.spacing⟩ }
  | Direction.overlay => g

/-- `InternalState::AlignDimension`: slack offset for one dimension
(`dim = false` is x, `dim = true` is y).  The centre case uses C++ integer
division, which truncates toward zero (`Int.div`). -/
def alignDimension (al : Alignment) (dim : Bool) (space : Vec2i) : Vec2i :=
  let amt : Int :=
    match al with
    | Alignment.topLeft => 0
    | Alignment.center => Int.tdiv (if dim then space.y else space.x) 2
    | Alignment.bottomRight => if dim then space.y else space.x
  if dim then ⟨0, amt⟩ else ⟨amt, 0⟩

/-- `InternalState::Position`: absolute position of an element inside the
current group from the group's cursor, margin and cross-axis alignment. -/
def positionOf (g : Group) (e : Element) : Vec2i :=
  let pos := g.position + g.margin.xy
  let space := g.size - e.size - g.margin.xy - g.margin.zw
  match g.direction with
  | Direction.horizontal => pos + alignDimension g.align true space
  | Direction.vertical => pos + alignDimension g.align false space
  | Direction.overlay =>
      pos + alignDimension g.align false space + alignDimension g.align true space

/-- The per-frame mutable state of `InternalState` that the layout/render
machinery reads and writes: the pass flag `layout_pass_`, the element
sequence `elements_`, the render iterator `element_it_` (as an index),
the current group (the `Group` base object of `InternalState`), the group
stack, and the scroll-clip bookkeeping. -/
structure UIState where
  layout_pass : Bool
  elements : List Element
  cursor : Nat
  group : Group
  group_stack : List Group
  clip_position : Vec2i
  clip_size : Vec2i
  clip_inside : Bool
deriving DecidableEq

/-- The state built by the `InternalState` constructor: the root group is
`Group(kDirVertical, kAlignLeft, 0, 0)`, the pass flag starts as layout,
and the element sequence is empty. -/
def initState : UIState :=
  { layout_pass := true
    elements := []
    cursor := 0
    group := Group.init Direction.vertical Alignment.topLeft 0 0
    group_stack := []
    clip_position := Vec2i.zero
    clip_size := Vec2i.zero
    clip_inside := false }

/-- `InternalState::NewElement` (layout pass): append an element. -/
def newElementS (size : Vec2i) (id : Nat) (s : UIState) : UIState :=
  { s with elements := s.elements ++ [Element.init size id] }

/-- The scan loop inside `InternalState::NextElement`: walk the remaining
elements comparing ids (pointer comparison `EqualId` in the C++); on a match
return the element together with the iterator position just past it. -/
def scanForward (id : Nat) : List Element → Nat → Option (Element × Nat)
  | [], _ => none
  | e :: rest, it => if e.id = id then some (e, it + 1) else scanForward id rest (it + 1)

/-- `InternalState::NextElement` (render pass): scan forward from the saved
cursor; on the first id match advance the cursor past the element and return
it; otherwise restore the cursor (`element_it_ = backup`) and return null. -/
def nextElementS (id : Nat) (s : UIState) : Option Element × UIState :=
  match scanForward id (s.elements.drop s.cursor) s.cursor with
  | some (e, it) => (some e, { s with cursor := it })
  | none => (none, s)

/-! Helper list lemmas used throughout. -/

theorem get?_drop_eq (l : List Element) (n m : Nat) :
    (l.drop n).get? m = l.get? (n + m) := by
  induction l generalizing n m with
  | nil => simp
  | cons a t ih =>
    cases n with
    | zero => simp
    | succ k =>
      simpa [List.drop, Nat.succ_add] using ih k m

/-- Characterisation of the `NextElement` scan: either no element of the list
matches and the scan fails, or there is a first match at offset `m` and the
scan returns it with the iterator moved past it. -/
theorem scan_spec (id : Nat) (l : List Element) (it : Nat) :
    (scanForward id l it = none ∧ ∀ k e, l.get? k = some e → e.id ≠ id) ∨
    (∃ m e, l.get? m = some e ∧ e.id = id ∧
      (∀ k e2, k < m → l.get? k = some e2 → e2.id ≠ id) ∧
      scanForward id l it = some (e, it + m + 1)) := by
  induction l generalizing it with
  | nil =>
    left
    constructor
    · rfl
    · intro k e h
      simp at h
  | cons a t ih =>
    by_cases ha : a.id = id
    · right
      refine ⟨0, a, rfl, ha, ?_, ?_⟩
      · intro k e2 hk
        omega
      · simp [scanForward, ha]
    · rcases ih (it + 1) with ⟨hnone, hall⟩ | ⟨m, e, hget, hid, hbefore, hscan⟩
      · left
        constructor
        · simp [scanForward, ha, hnone]
        · intro k e h
          cases k with
          | zero =>
            simp at h
            subst h
            exact ha
          | succ k2 =>
            exact hall k2 e (by simpa using h)
      · right
        refine ⟨m + 1, e, by simpa using hget, hid, ?_, ?_⟩
        · intro k e2 hk hke
          cases k with
          | zero =>
            simp at hke
            subst hke
            exact ha
          | succ k2 =>
            exact hbefore k2 e2 (by omega) (by simpa using hke)
        · have : it + (m + 1) + 1 = (it + 1) + m + 1 := by omega
          simp [scanForward, ha, hscan, this]

/-- Claim C1: during the render pass `NextElement(id)` scans forward from the
saved cursor comparing identity tokens; if some element at or after the cursor
matches, the first such element is returned and the cursor is advanced just
past it; if no element from the cursor to the end matches, the cursor is
restored to exactly its previous value and null is returned — for every
element sequence, cursor position and id. -/
theorem nextElement_spec (s : UIState) (id : Nat) :
    (nextElementS id s = (none, s) ∧
      ∀ j e, s.cursor ≤ j → s.elements.get? j = some e → e.id ≠ id) ∨
    (∃ j e, s.cursor ≤ j ∧ s.elements.get? j = some e ∧ e.id = id ∧
      (∀ k e2, s.cursor ≤ k → k < j → s.elements.get? k = some e2 → e2.id ≠ id) ∧
      nextElementS id s = (some e, { s with cursor := j + 1 })) := by
  rcases scan_spec id (s.elements.drop s.cursor) s.cursor with
    ⟨hnone, hall⟩ | ⟨m, e, hget, hid, hbefore, hscan⟩
  · left
    constructor
    · simp [nextElementS, hnone]
    · intro j e hle hj
      have hk : s.cursor + (j - s.cursor) = j := by omega
      apply hall (j - s.cursor) e
      rw [get?_drop_eq, hk]
      exact hj
  · right
    refine ⟨s.cursor + m, e, by omega, ?_, hid, ?_, ?_⟩
    · rw [← get?_drop_eq]
      exact hget
    · intro k e2 hle hlt hk
      apply hbefore (k - s.cursor) e2 (by omega)
      rw [get?_drop_eq]
      have : s.cursor + (k - s.cursor) = k := by omega
      rw [this]
      exact hk
    · have : s.cursor + m + 1 = (s.cursor + m) + 1 := rfl
      simp [nextElementS, hscan]

/-- Concrete state for the C1 witness: one element with id 2, cursor at 0. -/
def c1s0 : UIState :=
  { initState with elements := [Element.init ⟨1, 1⟩ 2], cursor := 0 }

/-- Witness for C1: querying the unmatched id 5 returns null and restores the
state unchanged, obtained from the scan characterisation at a concrete input. -/
theorem nextElement_spec_witness : nextElementS 5 c1s0 = (none, c1s0) := by
  rcases nextElement_spec c1s0 5 with ⟨h1, _⟩ | ⟨j, e, _, hget, hid, _, _⟩
  · exact h1
  · exfalso
    have hlen : j < c1s0.elements.length := (List.get?_eq_some.mp hget).1
    have hj0 : j = 0 := by
      simp [c1s0, initState] at hlen
      omega
    subst hj0
    simp [c1s0, initState, Element.init] at hget
    rw [← hget] at hid
    simp at hid

/-! Element-sequence update helper: `elements_[idx].field = v` in the C++
mutates one slot of the vector in place; in the model this is an update of
one list position. -/

def modifyAt (f : Element → Element) : Nat → List Element → List Element
  | _, [] => []
  | 0, e :: rest => f e :: rest
  | Nat.succ n, e :: rest => e :: modifyAt f n rest

theorem modifyAt_get? (f : Element → Element) (n : Nat) (l : List Element) (i : Nat) :
    (modifyAt f n l).get? i = if i = n then (l.get? i).map f else l.get? i := by
  induction l generalizing n i with
  | nil => simp [modifyAt]
  | cons a t ih =>
    cases n with
    | zero =>
      cases i with
      | zero => simp [modifyAt]
      | succ j => simp [modifyAt]
    | succ m =>
      cases i with
      | zero => simp [modifyAt]
      | succ j => simpa [modifyAt] using ih m j

/-- `InternalState::EndScroll`, layout-pass branch: store
`extra_size = size_ - clip_size_` (no clamping in the source) on the scroll
region's anchor element, overwrite the group size with the clip size, and
clear the nested-scroll guard. -/
def endScrollLayoutS (s : UIState) : UIState :=
  { s with
    elements := modifyAt (fun e => { e with extra_size := s.group.size - s.clip_size })
      s.group.element_idx s.elements
    group := { s.group with size := s.clip_size }
    clip_inside := false }

/-- Concrete layout state for the C2 counterexample: a scroll region whose
measured content size is (0,0) while the visible clip size is (10,10). -/
def c2cex : UIState :=
  { initState with
    elements := [Element.init ⟨0, 0⟩ 2]
    group := Group.init Direction.vertical Alignment.topLeft 0 0
    clip_size := ⟨10, 10⟩
    clip_inside := true }

/-- Counterexample for C2: the code stores `extra_size = (0,0) - (10,10) =
(-10,-10)` on the anchor element, whereas the claimed clamped value
`max(0, content - visible)` is `(0,0)`; the two differ. -/
theorem endScroll_no_clamp_cex :
    ((endScrollLayoutS c2cex).elements.get? 0).map Element.extra_size = some ⟨-10, -10⟩ ∧
    Vec2i.max2 Vec2i.zero (c2cex.group.size - c2cex.clip_size) = ⟨0, 0⟩ ∧
    (⟨-10, -10⟩ : Vec2i) ≠ ⟨0, 0⟩ := by
  decide

/-- Claim C2 (amended): in the layout pass `EndScroll` stores
`extraSize = measuredContentSize - visibleSize` on the anchor element with no
clamping (negative when the content is smaller than the clip window), and then
overwrites the group's reported size with the visible clip size. -/
theorem endScroll_extra_size (s : UIState) (h : s.group.element_idx < s.elements.length) :
    ∃ e, s.elements.get? s.group.element_idx = some e ∧
      (endScrollLayoutS s).elements.get? s.group.element_idx =
        some { e with extra_size := s.group.size - s.clip_size } ∧
      (endScrollLayoutS s).group.size = s.clip_size ∧
      (endScrollLayoutS s).clip_inside = false := by
  rcases List.get?_eq_get h with hget
  refine ⟨s.elements.get ⟨s.group.element_idx, h⟩, hget, ?_, rfl, rfl⟩
  show (modifyAt _ s.group.element_idx s.elements).get? s.group.element_idx = _
  rw [modifyAt_get?, if_pos rfl, hget]
  rfl

/-- Witness for C2 at a concrete in-bounds state. -/
theorem endScroll_extra_size_witness :
    ∃ e, c2cex.elements.get? c2cex.group.element_idx = some e ∧
      (endScrollLayoutS c2cex).elements.get? c2cex.group.element_idx =
        some { e with extra_size := c2cex.group.size - c2cex.clip_size } ∧
      (endScrollLayoutS c2cex).group.size = c2cex.clip_size ∧
      (endScrollLayoutS c2cex).clip_inside = false :=
  endScroll_extra_size c2cex (by decide)

/-! Claim C3: accumulated group size under `Extend`. -/

/-- Fresh horizontal group with spacing 2 for the C3 counterexample. -/
def c3g0 : Group := Group.init Direction.horizontal Alignment.topLeft 2 0

/-- Counterexample for C3: a horizontal group with spacing 2 extended by the
children (0,5) and (10,5) measures 10 on the primary axis, while the claimed
formula `sum of child widths + spacing*(childCount-1)` gives 12 — the code
skips the spacing whenever the accumulated width is still zero, not merely for
the first child. -/
theorem extend_spacing_cex :
    (List.foldl Group.extend c3g0 [⟨0, 5⟩, ⟨10, 5⟩]).size.x = 10 ∧
    ((([⟨0, 5⟩, ⟨10, 5⟩] : List Vec2i).map Vec2i.x).sum + 2 * ((2 : Int) - 1)) = 12 ∧
    (10 : Int) ≠ 12 := by
  decide

theorem sum_map_add_const (sp : Int) (f : Vec2i → Int) (l : List Vec2i) :
    (l.map (fun c => f c + sp)).sum = (l.map f).sum + sp * l.length := by
  induction l with
  | nil => simp
  | cons a t ih =>
    simp [ih]
    ring

theorem foldl_extend_h (al : Alignment) (sp : Int) (idx : Nat) (pos : Vec2i) (mar : Vec4i)
    (children : List Vec2i) (S M : Int) (hS : 0 < S) (hsp : 0 ≤ sp)
    (hc : ∀ c ∈ children, 0 < c.x) :
    (List.foldl Group.extend
        ⟨Direction.horizontal, al, sp, ⟨S, M⟩, pos, idx, mar⟩ children).size =
      ⟨S + (children.map (fun c => c.x + sp)).sum, (children.map Vec2i.y).foldl max M⟩ := by
  induction children generalizing S M with
  | nil => simp
  | cons c t ih =>
    have hcx : 0 < c.x := hc c (by simp)
    have hS' : S ≠ 0 := by omega
    have hstep : Group.extend ⟨Direction.horizontal, al, sp, ⟨S, M⟩, pos, idx, mar⟩ c =
        ⟨Direction.horizontal, al, sp, ⟨S + c.x + sp, max M c.y⟩, pos, idx, mar⟩ := by
      simp [Group.extend, hS']
    rw [List.foldl_cons, hstep,
      ih (S + c.x + sp) (max M c.y) (by omega) (fun d hd => hc d (by simp [hd]))]
    simp [Vec2i.mk.injEq]
    ring

theorem foldl_extend_v (al : Alignment) (sp : Int) (idx : Nat) (pos : Vec2i) (mar : Vec4i)
    (children : List Vec2i) (S M : Int) (hS : 0 < S) (hsp : 0 ≤ sp)
    (hc : ∀ c ∈ children, 0 < c.y) :
    (List.foldl Group.extend
        ⟨Direction.vertical, al, sp, ⟨M, S⟩, pos, idx, mar⟩ children).size =
      ⟨(children.map Vec2i.x).foldl max M, S + (children.map (fun c => c.y + sp)).sum⟩ := by
  induction children generalizing S M with
  | nil => simp
  | cons c t ih =>
    have hcy : 0 < c.y := hc c (by simp)
    have hS' : S ≠ 0 := by omega
    have hstep : Group.extend ⟨Direction.vertical, al, sp, ⟨M, S⟩, pos, idx, mar⟩ c =
        ⟨Direction.vertical, al, sp, ⟨max M c.x, S + c.y + sp⟩, pos, idx, mar⟩ := by
      simp [Group.extend, hS']
    rw [List.foldl_cons, hstep,
      ih (S + c.y + sp) (max M c.x) (by omega) (fun d hd => hc d (by simp [hd]))]
    simp [Vec2i.mk.injEq]
    ring

theorem foldl_extend_o (al : Alignment) (sp : Int) (idx : Nat) (pos : Vec2i) (mar : Vec4i)
    (children : List Vec2i) (X Y : Int) :
    (List.foldl Group.extend ⟨Direction.overlay, al, sp, ⟨X, Y⟩, pos, idx, mar⟩ children).size =
      ⟨(children.map Vec2i.x).foldl max X, (children.map Vec2i.y).foldl max Y⟩ := by
  induction children generalizing X Y with
  | nil => simp
  | cons c t ih =>
    have hstep : Group.extend ⟨Direction.overlay, al, sp, ⟨X, Y⟩, pos, idx, mar⟩ c =
        ⟨Direction.overlay, al, sp, ⟨max X c.x, max Y c.y⟩, pos, idx, mar⟩ := by
      simp [Group.extend]
    rw [List.foldl_cons, hstep, ih (max X c.x) (max Y c.y)]
    simp

/-- Claim C3 (amended): for a sequence of `Extend` calls on a fresh group with
non-negative spacing and children of positive size on both axes, a horizontal
group measures `sum of child widths + spacing*(childCount-1)` on the primary
axis and the running maximum of child heights (starting from 0, which for
positive children is their maximum) on the cross axis; a vertical group is
symmetric; an overlay group takes the running maximum on both axes.  In
general the source adds spacing before a child exactly when the accumulated
primary size is nonzero, so zero-size prefixes contribute no spacing. -/
theorem extend_sum_max (al : Alignment) (sp : Int) (idx : Nat) (children : List Vec2i)
    (hsp : 0 ≤ sp) (hne : children ≠ [])
    (hpos : ∀ c ∈ children, 0 < c.x ∧ 0 < c.y) :
    (List.foldl Group.extend (Group.init Direction.horizontal al sp idx) children).size =
      ⟨(children.map Vec2i.x).sum + sp * ((children.length : Int) - 1),
       (children.map Vec2i.y).foldl max 0⟩ ∧
    (List.foldl Group.extend (Group.init Direction.vertical al sp idx) children).size =
      ⟨(children.map Vec2i.x).foldl max 0,
       (children.map Vec2i.y).sum + sp * ((children.length : Int) - 1)⟩ ∧
    (List.foldl Group.extend (Group.init Direction.overlay al sp idx) children).size =
      ⟨(children.map Vec2i.x).foldl max 0, (children.map Vec2i.y).foldl max 0⟩ := by
  cases children with
  | nil => exact absurd rfl hne
  | cons c t =>
    have hcx : 0 < c.x := (hpos c (by simp)).1
    have hcy : 0 < c.y := (hpos c (by simp)).2
    have htx : ∀ d ∈ t, 0 < d.x := fun d hd => (hpos d (by simp [hd])).1
    have hty : ∀ d ∈ t, 0 < d.y := fun d hd => (hpos d (by simp [hd])).2
    refine ⟨?_, ?_, ?_⟩
    · have hstep : Group.extend (Group.init Direction.horizontal al sp idx) c =
          ⟨Direction.horizontal, al, sp, ⟨c.x, max 0 c.y⟩, Vec2i.zero, idx, Vec4i.zero⟩ := by
        simp [Group.extend, Group.init, Vec2i.zero]
      rw [List.foldl_cons, hstep, foldl_extend_h al sp idx _ _ t c.x (max 0 c.y) hcx hsp htx,
        sum_map_add_const]
      simp [Vec2i.mk.injEq]
      ring
    · have hstep : Group.extend (Group.init Direction.vertical al sp idx) c =
          ⟨Direction.vertical, al, sp, ⟨max 0 c.x, c.y⟩, Vec2i.zero, idx, Vec4i.zero⟩ := by
        simp [Group.extend, Group.init, Vec2i.zero]
      rw [List.foldl_cons, hstep, foldl_extend_v al sp idx _ _ t c.y (max 0 c.x) hcy hsp hty,
        sum_map_add_const]
      simp [Vec2i.mk.injEq]
      ring
    · have hstep : Group.extend (Group.init Direction.overlay al sp idx) c =
          ⟨Direction.overlay, al, sp, ⟨max 0 c.x, max 0 c.y⟩, Vec2i.zero, idx, Vec4i.zero⟩ := by
        simp [Group.extend, Group.init, Vec2i.zero]
      rw [List.foldl_cons, hstep, foldl_extend_o al sp idx _ _ t (max 0 c.x) (max 0 c.y)]
      simp

/-- Witness for C3 at concrete children (3,4) and (5,6) with spacing 2. -/
theorem extend_sum_max_witness :
    (List.foldl Group.extend (Group.init Direction.horizontal Alignment.topLeft 2 0)
        [⟨3, 4⟩, ⟨5, 6⟩]).size =
      ⟨(([⟨3, 4⟩, ⟨5, 6⟩] : List Vec2i).map Vec2i.x).sum + 2 * ((2 : Int) - 1),
       (([⟨3, 4⟩, ⟨5, 6⟩] : List Vec2i).map Vec2i.y).foldl max 0⟩ ∧
    (List.foldl Group.extend (Group.init Direction.vertical Alignment.topLeft 2 0)
        [⟨3, 4⟩, ⟨5, 6⟩]).size =
      ⟨(([⟨3, 4⟩, ⟨5, 6⟩] : List Vec2i).map Vec2i.x).foldl max 0,
       (([⟨3, 4⟩, ⟨5, 6⟩] : List Vec2i).map Vec2i.y).sum + 2 * ((2 : Int) - 1)⟩ ∧
    (List.foldl Group.extend (Group.init Direction.overlay Alignment.topLeft 2 0)
        [⟨3, 4⟩, ⟨5, 6⟩]).size =
      ⟨(([⟨3, 4⟩, ⟨5, 6⟩] : List Vec2i).map Vec2i.x).foldl max 0,
       (([⟨3, 4⟩, ⟨5, 6⟩] : List Vec2i).map Vec2i.y).foldl max 0⟩ :=
  extend_sum_max Alignment.topLeft 2 0 [⟨3, 4⟩, ⟨5, 6⟩] (by decide) (by decide) (by decide)

/-! Claim C4: render-pass scroll offset update in `StartScroll`. -/

/-- The offset update on line 737-739 of the source:
`*offset = Min(extra_size, Max(0, *offset - pointer_delta * scroll_speed))`. -/
def scrollOffsetUpdate (extra offset pointer_delta : Vec2i) (scroll_speed : Int) : Vec2i :=
  Vec2i.min2 extra (Vec2i.max2 Vec2i.zero (offset - pointer_delta.smul scroll_speed))

/-- Counterexample for C4: when the stored `extra_size` is negative (which
`EndScroll` produces whenever the content is smaller than the clip window),
the updated offset is negative, contradicting the claim that the result is
never negative on either component. -/
theorem scroll_clamp_negative_cex :
    scrollOffsetUpdate ⟨-10, -10⟩ ⟨0, 0⟩ ⟨0, 0⟩ 2 = ⟨-10, -10⟩ ∧
    ¬ (0 ≤ (scrollOffsetUpdate ⟨-10, -10⟩ ⟨0, 0⟩ ⟨0, 0⟩ 2).x) := by
  decide

/-- Claim C4 (amended): the render-pass scroll update computes
`offset := min(extraSize, max(0, offset - delta*speed))` componentwise; when
`extraSize` is componentwise non-negative the result lies in `[0, extraSize]`
on both components for every delta magnitude and sign.  (When `extraSize` has
a negative component the result takes that negative value.) -/
theorem scroll_clamp_nonneg (extra offset delta : Vec2i) (speed : Int)
    (hx : 0 ≤ extra.x) (hy : 0 ≤ extra.y) :
    scrollOffsetUpdate extra offset delta speed =
      Vec2i.min2 extra (Vec2i.max2 Vec2i.zero (offset - delta.smul speed)) ∧
    0 ≤ (scrollOffsetUpdate extra offset delta speed).x ∧
    (scrollOffsetUpdate extra offset delta speed).x ≤ extra.x ∧
    0 ≤ (scrollOffsetUpdate extra offset delta speed).y ∧
    (scrollOffsetUpdate extra offset delta speed).y ≤ extra.y := by
  refine ⟨rfl, ?_, ?_, ?_, ?_⟩
  · exact le_min hx (le_max_left 0 _)
  · exact min_le_left _ _
  · exact le_min hy (le_max_left 0 _)
  · exact min_le_left _ _

/-- Witness for C4 at a concrete non-negative `extra_size`. -/
theorem scroll_clamp_nonneg_witness :
    scrollOffsetUpdate ⟨10, 10⟩ ⟨3, 3⟩ ⟨1, 1⟩ 2 =
      Vec2i.min2 ⟨10, 10⟩ (Vec2i.max2 Vec2i.zero ((⟨3, 3⟩ : Vec2i) - Vec2i.smul ⟨1, 1⟩ 2)) ∧
    0 ≤ (scrollOffsetUpdate ⟨10, 10⟩ ⟨3, 3⟩ ⟨1, 1⟩ 2).x ∧
    (scrollOffsetUpdate ⟨10, 10⟩ ⟨3, 3⟩ ⟨1, 1⟩ 2).x ≤ (10 : Int) ∧
    0 ≤ (scrollOffsetUpdate ⟨10, 10⟩ ⟨3, 3⟩ ⟨1, 1⟩ 2).y ∧
    (scrollOffsetUpdate ⟨10, 10⟩ ⟨3, 3⟩ ⟨1, 1⟩ 2).y ≤ (10 : Int) :=
  scroll_clamp_nonneg ⟨10, 10⟩ ⟨3, 3⟩ ⟨1, 1⟩ 2 (by decide) (by decide)

/-! Claim C6: event derivation and click-to-focus in `CheckEvent`. -/

/-- Cross-frame `PersistentState`, restricted to one pointer index: the slot
`pointer_element` stands for `pointer_element[i]` of the pointer under
consideration (the C++ loop reads and writes only slot `i`).  The text-edit
handler is an external collaborator and is omitted. -/
structure Persistent where
  input_focus : Nat
  input_capture : Nat
  mouse_capture : Nat
  pointer_element : Nat
  drag_start_position : Vec2i
  dragging_pointer : Int
deriving DecidableEq

/-- Per-frame button state as polled from the input system. -/
structure ButtonState where
  went_down : Bool
  is_down : Bool
  went_up : Bool
deriving DecidableEq

/-- The event bitmask built by `CheckEvent` (`kEventWentUp` … `kEventHover`),
modelled as one flag per bit. -/
structure EventFlags where
  wentUp : Bool
  wentDown : Bool
  isDown : Bool
  startDrag : Bool
  endDrag : Bool
  isDragging : Bool
  hover : Bool
deriving DecidableEq

/-- The empty bitmask `kEventNone`. -/
def EventFlags.zero : EventFlags := ⟨false, false, false, false, false, false, false⟩

/-- `InternalState::CaptureInput`: record the keyboard/IME capture; releasing
(passing the dummy id) also clears the keyboard focus.  (Starting/stopping
text-input recording and IME are external input-system calls.) -/
def captureInput (element_id : Nat) (p : Persistent) : Persistent :=
  if element_id ≠ kDummyId then
    { p with input_capture := element_id }
  else
    { p with input_capture := element_id, input_focus := kDummyId }

/-- `mathfu::InRange2D`: componentwise half-open range test. -/
def inRange2D (v lo hi : Vec2i) : Bool :=
  decide (lo.x ≤ v.x) && decide (v.x < hi.x) && decide (lo.y ≤ v.y) && decide (v.y < hi.y)

/-- The body of the per-pointer loop in `InternalState::CheckEvent` (lines
893-958 of the source) for pointer `i`, evaluated once the capture/hit test of
the surrounding `if` has passed: derives the event bitmask and updates the
persistent interaction state.  `id` is the element's id, `position`/`size` the
current group rectangle, `thr` the drag-start threshold. -/
def checkEventPointer (check_drag_only : Bool) (i : Int) (id : Nat) (btn : ButtonState)
    (mousepos position size thr : Vec2i) (p : Persistent) : EventFlags × Persistent :=
  if p.dragging_pointer = i then
    if btn.went_up then
      ({ EventFlags.zero with endDrag := true },
       { p with dragging_pointer := kPointerIndexInvalid,
                drag_start_position := dragStartInvalid })
    else if btn.is_down then
      ({ EventFlags.zero with isDragging := true }, p)
    else
      ({ EventFlags.zero with hover := true }, p)
  else
    let step1 : EventFlags × Persistent :=
      if !check_drag_only then
        let step0 : EventFlags × Persistent :=
          if btn.went_down then
            ({ EventFlags.zero with wentDown := true }, { p with pointer_element := id })
          else (EventFlags.zero, p)
        if btn.went_up ∧ step0.2.pointer_element = id then
          ({ step0.1 with wentUp := true }, step0.2)
        else if btn.is_down ∧ step0.2.pointer_element = id then
          if step0.2.input_focus ≠ id then
            ({ step0.1 with isDown := true },
             { captureInput kDummyId step0.2 with input_focus := id })
          else ({ step0.1 with isDown := true }, step0.2)
        else step0
      else (EventFlags.zero, p)
    let step2 : Persistent :=
      if btn.went_down then { step1.2 with drag_start_position := mousepos } else step1.2
    let step3 : EventFlags × Persistent :=
      if btn.is_down ∧ inRange2D step2.drag_start_position position (position + size) = true ∧
          inRange2D mousepos (step2.drag_start_position - thr)
            (step2.drag_start_position + thr) = false then
        ({ step1.1 with startDrag := true },
         { step2 with drag_start_position := mousepos, dragging_pointer := i })
      else (step1.1, step2)
    if step3.1 = EventFlags.zero then ({ step3.1 with hover := true }, step3.2)
    else step3

/-- Persistent state for the C6 counterexample: pointer 0 last pressed element
5, no keyboard capture, keyboard focus on a different element 7. -/
def c6p0 : Persistent := ⟨7, kDummyId, kDummyId, 5, ⟨-1, -1⟩, -1⟩

/-- Counterexample for C6: element 5 receives a `WentUp` event (button
released over it, it was the last pressed) while no keyboard capture targets
it, yet keyboard focus stays on element 7 — the source transfers focus only in
the `IsDown` branch, never on `WentUp`. -/
theorem wentUp_no_focus_transfer_cex :
    (checkEventPointer false 0 5 ⟨false, false, true⟩ ⟨0, 0⟩ ⟨0, 0⟩ ⟨10, 10⟩ ⟨8, 8⟩ c6p0).1.wentUp
      = true ∧
    (checkEventPointer false 0 5 ⟨false, false, true⟩ ⟨0, 0⟩ ⟨0, 0⟩ ⟨10, 10⟩ ⟨8, 8⟩
        c6p0).2.input_focus = 7 ∧
    (7 : Nat) ≠ 5 := by
  decide

/-- Claim C6 (amended): keyboard focus transfer (click-to-focus) happens
exactly in the `IsDown` branch: when pointer `i` is not mid-drag, the button
is held but did not just go up, the element was the one last pressed by this
pointer, and the element does not already hold keyboard focus, then the
derived event contains `IsDown`, keyboard focus moves to the element, and any
keyboard/IME capture is released (set to the dummy id).  A bare `WentUp` does
not transfer focus. -/
theorem isDown_focus_transfer (i : Int) (id : Nat) (btn : ButtonState)
    (mousepos position size thr : Vec2i) (p : Persistent)
    (hdrag : p.dragging_pointer ≠ i) (hup : btn.went_up = false)
    (hdown : btn.is_down = true) (hsame : btn.went_down = true ∨ p.pointer_element = id)
    (hfocus : p.input_focus ≠ id) :
    (checkEventPointer false i id btn mousepos position size thr p).1.isDown = true ∧
    (checkEventPointer false i id btn mousepos position size thr p).2.input_focus = id ∧
    (checkEventPointer false i id btn mousepos position size thr p).2.input_capture
      = kDummyId := by
  have hcap : (kDummyId ≠ kDummyId) = False := by simp
  rcases hsame with hwd | hpe
  · simp only [checkEventPointer, hdrag, hup, hdown, hwd, captureInput, hcap,
      if_false, if_true, Bool.false_eq_true, Bool.not_false, ite_true, ite_false]
    simp [hfocus, EventFlags.zero]
    split <;> simp
  · by_cases hwd : btn.went_down = true
    · simp only [checkEventPointer, hdrag, hup, hdown, hwd, captureInput, hcap,
        if_false, if_true, Bool.false_eq_true, Bool.not_false, ite_true, ite_false]
      simp [hfocus, EventFlags.zero]
      split <;> simp
    · have hwd2 : btn.went_down = false := by
        cases h : btn.went_down
        · rfl
        · exact absurd h hwd
      simp only [checkEventPointer, hdrag, hup, hdown, hwd2, captureInput, hcap,
        if_false, if_true, Bool.false_eq_true, Bool.not_false, ite_true, ite_false]
      simp [hfocus, hpe, EventFlags.zero]
      split <;> simp

/-- Witness for C6: pointer 0 holds element 5 pressed with focus previously on
element 7; applying the theorem shows `IsDown` fires, focus moves to 5, and
capture is released. -/
theorem isDown_focus_transfer_witness :
    (checkEventPointer false 0 5 ⟨false, true, false⟩ ⟨1, 1⟩ ⟨0, 0⟩ ⟨10, 10⟩ ⟨8, 8⟩ c6p0).1.isDown
      = true ∧
    (checkEventPointer false 0 5 ⟨false, true, false⟩ ⟨1, 1⟩ ⟨0, 0⟩ ⟨10, 10⟩ ⟨8, 8⟩
        c6p0).2.input_focus = 5 ∧
    (checkEventPointer false 0 5 ⟨false, true, false⟩ ⟨1, 1⟩ ⟨0, 0⟩ ⟨10, 10⟩ ⟨8, 8⟩
        c6p0).2.input_capture = kDummyId :=
  isDown_focus_transfer 0 5 ⟨false, true, false⟩ ⟨1, 1⟩ ⟨0, 0⟩ ⟨10, 10⟩ ⟨8, 8⟩ c6p0
    (by decide) rfl rfl (Or.inr rfl) (by decide)

/-! Claim C9: gamepad/keyboard focus traversal `NextInteractiveElement`. -/

/-- Outcome of one run of the `NextInteractiveElement` loop: an interactive
element's id, the `kDummyId` no-focus sentinel, or an out-of-bounds vector
access (`elements_[i]` with `i < 0` or `i ≥ size`), which in the C++ is
undefined behaviour. -/
inductive NIEResult where
  | found : Nat → NIEResult
  | noFocus : NIEResult
  | outOfBounds : NIEResult
deriving DecidableEq

/-- The loop of `InternalState::NextInteractiveElement`, fuel-bounded (the C++
`for (;;)` has no bound; `none` means the fuel ran out, i.e. the loop ran that
many iterations without returning).  Each iteration advances `i` by
`direction`, wraps negative `i` to `range - 1` and overflowing `i` to `-1`,
returns the dummy id when `i` is back at `start`, and otherwise reads
`elements_[i]` — an out-of-bounds access when `i` is still `-1`. -/
def nieLoop (elements : List Element) (start direction : Int) : Int → Nat → Option NIEResult
  | _, 0 => none
  | i, Nat.succ fuel =>
    let range : Int := elements.length
    let i1 := i + direction
    let i2 := if i1 < 0 then range - 1 else if range ≤ i1 then (-1 : Int) else i1
    if i2 = start then some NIEResult.noFocus
    else if i2 < 0 then some NIEResult.outOfBounds
    else
      match elements.get? i2.toNat with
      | none => some NIEResult.outOfBounds
      | some e =>
        if e.interactive then some (NIEResult.found e.id)
        else nieLoop elements start direction i2 fuel

/-- `InternalState::NextInteractiveElement(start, direction)`. -/
def nextInteractiveElement (elements : List Element) (start direction : Int)
    (fuel : Nat) : Option NIEResult :=
  nieLoop elements start direction start fuel

/-- Two interactive elements for the C9 evaluation. -/
def c9elems : List Element :=
  [⟨⟨1, 1⟩, Vec2i.zero, 10, true⟩, ⟨⟨1, 1⟩, Vec2i.zero, 11, true⟩]

/-- Claim C9 evaluated at its failing input: starting forward
(`direction = 1`) from the last interactive element (index 1) of a two-element
sequence, the loop sets `i = -1` on wrap and, since `-1 ≠ start`, immediately
reads `elements_[-1]` — an out-of-bounds access (undefined behaviour) — instead
of safely wrapping to return the first interactive element as the claim
states.  (With `start = -1`, the claim's default-focus case, the wrap is safe
because the `i == start` check fires first.) -/
theorem nextInteractive_oob_eval :
    nextInteractiveElement c9elems 1 1 5 = some NIEResult.outOfBounds ∧
    nextInteractiveElement c9elems (-1) 1 5 = some (NIEResult.found 10) := by
  decide

/-! Group stack operations: `StartGroup`, `EndGroup`, `StartRenderPass`,
and the two-pass driver `Run`. -/

/-- `InternalState::StartGroup`: construct a fresh group record, push the
current group; in the layout pass append a zero-size element for the group; in
the render pass read position/size back from the matched element (the new
`element_idx` is the iterator position minus one), or on a miss point
`element_idx` at the last element of the sequence (the sentinel appended by
`StartRenderPass`), leaving the fresh group's zero size and zero position.
Both branches finally reset the clip bookkeeping. -/
def startGroupFull (dir : Direction) (al : Alignment) (sp : Int) (id : Nat)
    (s : UIState) : UIState :=
  let layout := Group.init dir al sp s.elements.length
  let pushed := { s with group_stack := s.group :: s.group_stack }
  let s2 :=
    if pushed.layout_pass then
      { newElementS Vec2i.zero id pushed with group := layout }
    else
      match nextElementS id pushed with
      | (some e, s1) =>
        let g2 : Group :=
          { layout with
            position := positionOf s.group e
            size := e.size
            element_idx := s1.cursor - 1 }
        { s1 with group := g2 }
      | (none, s1) =>
        { s1 with group := { layout with element_idx := s.elements.length - 1 } }
  { s2 with clip_position := Vec2i.zero, clip_size := Vec2i.zero }

/-- Mark the first `n` elements of the sequence non-interactive: the loop
`for (i = 0; i < element_idx; i++) elements_[i].interactive = false;` run by
`EndGroup` when the parent group is an overlay. -/
def markBefore : Nat → List Element → List Element
  | 0, l => l
  | _ + 1, [] => []
  | n + 1, e :: rest => { e with interactive := false } :: markBefore n rest

theorem markBefore_get? (n : Nat) (l : List Element) (i : Nat) :
    (markBefore n l).get? i =
      if i < n then (l.get? i).map (fun e => { e with interactive := false })
      else l.get? i := by
  induction l generalizing n i with
  | nil => cases n <;> simp [markBefore]
  | cons a t ih =>
    cases n with
    | zero => simp [markBefore]
    | succ m =>
      cases i with
      | zero => simp [markBefore]
      | succ j =>
        simpa [markBefore, Nat.succ_lt_succ_iff] using ih m j

/-- `InternalState::EndGroup`: fatal (`assert`) on an empty group stack;
otherwise pop the parent into the current slot, and in the layout pass add the
margins, feed the closing size into the parent's `Extend`, write the size back
into the anchor element, and — when the parent is an overlay — mark every
element of the sequence before the anchor non-interactive; in the render pass
advance the parent cursor past the anchor element's size. -/
def endGroupFull (s : UIState) : Option UIState :=
  match s.group_stack with
  | [] => none
  | parent :: rest =>
    let size0 := s.group.size
    let margin := s.group.margin.xy + s.group.margin.zw
    let element_idx := s.group.element_idx
    if s.layout_pass then
      let size := size0 + margin
      let parent2 := parent.extend size
      let elements2 := modifyAt (fun e => { e with size := size }) element_idx s.elements
      let elements3 :=
        if parent2.direction = Direction.overlay then markBefore element_idx elements2
        else elements2
      some { s with group := parent2, group_stack := rest, elements := elements3 }
    else
      some { s with group := parent.advance (s.elements.getD element_idx default).size,
                    group_stack := rest }

/-- `InternalState::StartRenderPass`: fatal (`assert`) if the group stack is
non-empty; return immediately when the element sequence is empty; otherwise
append the zero-size sentinel element, reset the cursor position to the
origin, load the root element's measured size, clear the pass flag and rewind
the element iterator.  (The font-manager call and gamepad navigation touch
only external state.) -/
def startRenderPassS (s : UIState) : Option UIState :=
  if s.group_stack ≠ [] then none
  else if s.elements = [] then some s
  else
    let s1 := newElementS Vec2i.zero sentinelId s
    let g2 : Group :=
      { s1.group with
        position := Vec2i.zero
        size := (s.elements.headD default).size }
    some { s1 with group := g2, layout_pass := false, cursor := 0 }

/-- A leaf widget in the `Image`/`CustomElement` pattern: in the layout pass
append an element of the measured size and extend the current group; in the
render pass match the element and advance past it (drawing is external). -/
def customElementS (size : Vec2i) (id : Nat) (s : UIState) : UIState :=
  if s.layout_pass then
    let s1 := newElementS size id s
    { s1 with group := s1.group.extend size }
  else
    match nextElementS id s with
    | (some e, s1) => { s1 with group := s1.group.advance e.size }
    | (none, s1) => s1

/-- One step of the caller-supplied UI description: a `StartGroup`, an
`EndGroup`, or a leaf widget. -/
inductive GuiOp where
  | startG : Direction → Alignment → Int → Nat → GuiOp
  | endG : GuiOp
  | leaf : Vec2i → Nat → GuiOp
deriving DecidableEq

/-- Apply one description step; `none` is a fatal assertion failure. -/
def applyOp (s : UIState) : GuiOp → Option UIState
  | GuiOp.startG d a sp id => some (startGroupFull d a sp id s)
  | GuiOp.endG => endGroupFull s
  | GuiOp.leaf size id => some (customElementS size id s)

/-- Run a pass of the description, stopping at the first fatal error. -/
def runOps : List GuiOp → UIState → Option UIState
  | [], s => some s
  | op :: rest, s =>
    match applyOp s op with
    | some s1 => runOps rest s1
    | none => none

/-- `gui::Run`: construct the state, run the description once as the layout
pass, switch passes with `StartRenderPass`, run the description again as the
render pass, and return.  The render pass may execute a different op sequence
than the layout pass (event handlers can change control flow), and nothing is
checked after it. -/
def runModel (pass1 pass2 : List GuiOp) : Option UIState :=
  match runOps pass1 initState with
  | none => none
  | some s1 =>
    match startRenderPassS s1 with
    | none => none
    | some s2 => runOps pass2 s2

/-- Layout-pass ops for the C5 counterexample: one balanced group. -/
def c5pass1 : List GuiOp := [GuiOp.startG Direction.vertical Alignment.topLeft 0 2, GuiOp.endG]

/-- Render-pass ops for the C5 counterexample: the matching `StartGroup` is
re-entered but its `EndGroup` is skipped (divergent control flow). -/
def c5pass2 : List GuiOp := [GuiOp.startG Direction.vertical Alignment.topLeft 0 2]

/-- Counterexample for C5: a frame whose render pass runs one more
`StartGroup` than `EndGroup` completes without any fatal error — `Run` checks
the group stack only when the layout pass ends (the assert at the top of
`StartRenderPass`), not when the render pass ends — and the final state indeed
holds a non-empty group stack of depth 1. -/
theorem run_unbalanced_render_cex :
    (runModel c5pass1 c5pass2).isSome = true ∧
    (runModel c5pass1 c5pass2).map (fun s => s.group_stack.length) = some 1 := by
  decide

/-- Claim C5 (amended): a non-empty group stack when the *layout* pass ends is
a fatal error (the assert at the top of `StartRenderPass`), and an `EndGroup`
with no matching `StartGroup` (empty stack) is a fatal error; no corresponding
check runs when the render pass ends. -/
theorem unbalanced_group_fatal (s : UIState) :
    (s.group_stack ≠ [] → startRenderPassS s = none) ∧
    (s.group_stack = [] → endGroupFull s = none) := by
  constructor
  · intro h
    simp [startRenderPassS, h]
  · intro h
    simp [endGroupFull, h]

/-- Witness for C5: a state with a pushed group makes `StartRenderPass` fatal,
and the fresh state makes `EndGroup` fatal. -/
theorem unbalanced_group_fatal_witness :
    startRenderPassS { initState with
      group_stack := [Group.init Direction.vertical Alignment.topLeft 0 0] } = none ∧
    endGroupFull initState = none :=
  ⟨(unbalanced_group_fatal { initState with
      group_stack := [Group.init Direction.vertical Alignment.topLeft 0 0] }).1 (by decide),
   (unbalanced_group_fatal initState).2 (by decide)⟩

/-! Claim C7: the overlay single-responder policy in `EndGroup`. -/

/-- Layout state for the C7 counterexample: element 0 is an interactive leaf
that precedes (and lies outside) the overlay group anchored at element 1; the
child group being closed is anchored at element 2, and its parent on the stack
is the overlay group. -/
def c7s0 : UIState :=
  { layout_pass := true
    elements := [⟨⟨1, 1⟩, Vec2i.zero, 10, true⟩, Element.init Vec2i.zero 11,
                 Element.init Vec2i.zero 12]
    cursor := 0
    group := { Group.init Direction.vertical Alignment.topLeft 0 2 with size := ⟨2, 2⟩ }
    group_stack := [Group.init Direction.overlay Alignment.topLeft 0 1,
                    Group.init Direction.vertical Alignment.topLeft 0 0]
    clip_position := Vec2i.zero
    clip_size := Vec2i.zero
    clip_inside := false }

/-- Counterexample for C7: closing the child of an overlay group marks element
0 — an interactive leaf that sits *before the overlay group itself* in the
sequence, not a sibling inside it — non-interactive; the loop clears every
element with index below the closed child's anchor, so elements outside the
overlay do not keep their interactive flag. -/
theorem overlay_marks_outside_cex :
    (c7s0.elements.get? 0).map Element.interactive = some true ∧
    ((endGroupFull c7s0).map fun s2 => (s2.elements.get? 0).map Element.interactive)
      = some (some false) := by
  decide

/-- Claim C7 (amended): when a group is closed in the layout pass and the
parent group is an overlay, *every* element of the sequence with index below
the closed group's anchor index — siblings and elements outside the overlay
alike — is marked non-interactive, while elements at or above the anchor index
keep their interactive flag. -/
theorem overlay_marks_all_before (s : UIState) (parent : Group) (rest : List Group)
    (hst : s.group_stack = parent :: rest) (hl : s.layout_pass = true)
    (hov : parent.direction = Direction.overlay) :
    ∃ s2, endGroupFull s = some s2 ∧
      (∀ i, i < s.group.element_idx →
        (s2.elements.get? i).map Element.interactive = (s.elements.get? i).map fun _ => false) ∧
      (∀ i, s.group.element_idx ≤ i →
        (s2.elements.get? i).map Element.interactive
          = (s.elements.get? i).map Element.interactive) := by
  have hdir : (parent.extend (s.group.size + (s.group.margin.xy + s.group.margin.zw))).direction
      = Direction.overlay := by
    rcases parent with ⟨d, a, sp, sz, pos, idx, mar⟩
    cases d <;> simp_all [Group.extend]
  have hmain : endGroupFull s = some
      { s with
        group := parent.extend (s.group.size + (s.group.margin.xy + s.group.margin.zw))
        group_stack := rest
        elements := markBefore s.group.element_idx
          (modifyAt
            (fun e => { e with size := s.group.size + (s.group.margin.xy + s.group.margin.zw) })
            s.group.element_idx s.elements) } := by
    simp only [endGroupFull, hst, hl, hdir, if_true, ite_true]
  refine ⟨_, hmain, ?_, ?_⟩
  · intro i hi
    simp only [markBefore_get?, modifyAt_get?, hi, if_pos]
    by_cases hieq : i = s.group.element_idx
    · omega
    · simp only [hieq, if_false, Option.map_map]
      cases s.elements.get? i <;> rfl
  · intro i hi
    have hnlt : ¬ i < s.group.element_idx := by omega
    simp only [markBefore_get?, modifyAt_get?, hnlt, if_false]
    by_cases hieq : i = s.group.element_idx
    · simp only [hieq, if_pos, Option.map_map]
      cases s.elements.get? s.group.element_idx <;> rfl
    · simp [hieq]

/-- Witness for C7 at the concrete overlay state. -/
theorem overlay_marks_all_before_witness :
    ∃ s2, endGroupFull c7s0 = some s2 ∧
      (∀ i, i < c7s0.group.element_idx →
        (s2.elements.get? i).map Element.interactive
          = (c7s0.elements.get? i).map fun _ => false) ∧
      (∀ i, c7s0.group.element_idx ≤ i →
        (s2.elements.get? i).map Element.interactive
          = (c7s0.elements.get? i).map Element.interactive) :=
  overlay_marks_all_before c7s0 (Group.init Direction.overlay Alignment.topLeft 0 1)
    [Group.init Direction.vertical Alignment.topLeft 0 0] rfl rfl rfl

/-! Claim C8: render-pass `StartGroup` with an unmatched id. -/

/-- Render-pass state for the C8 counterexample: the parent group's cursor is
at (5,7) and the sequence holds one real element (id 2) and the sentinel. -/
def c8s0 : UIState :=
  { layout_pass := false
    elements := [Element.init ⟨3, 3⟩ 2, Element.init Vec2i.zero sentinelId]
    cursor := 0
    group := { Group.init Direction.vertical Alignment.topLeft 0 0 with
               size := ⟨100, 100⟩, position := ⟨5, 7⟩ }
    group_stack := []
    clip_position := Vec2i.zero
    clip_size := Vec2i.zero
    clip_inside := false }

/-- Counterexample for C8: entering a group whose id 9 matches no element
leaves the new group positioned at the origin (0,0), not at the parent
group's cursor (5,7) — the fresh `Group` record's zero position is never
overwritten on a `NextElement` miss. -/
theorem startGroup_unmatched_origin_cex :
    (startGroupFull Direction.vertical Alignment.topLeft 0 9 c8s0).group.position = ⟨0, 0⟩ ∧
    c8s0.group.position = ⟨5, 7⟩ ∧
    (⟨0, 0⟩ : Vec2i) ≠ ⟨5, 7⟩ := by
  decide

theorem nextElementS_miss (id : Nat) (s : UIState)
    (h : (nextElementS id s).1 = none) : nextElementS id s = (none, s) := by
  unfold nextElementS at h ⊢
  cases hscan : scanForward id (s.elements.drop s.cursor) s.cursor with
  | none => rfl
  | some p =>
    rw [hscan] at h
    simp at h

/-- Claim C8 (amended): in the render pass, `StartGroup` with an id that
matches no element produces a group of zero size whose position is the origin
(0,0) — not the parent's cursor — and whose element index is the last index of
the sequence, i.e. the zero-size sentinel appended by `StartRenderPass`; the
parent group is pushed, and the cursor and element sequence are unchanged. -/
theorem startGroup_unmatched_spec (dir : Direction) (al : Alignment) (sp : Int) (id : Nat)
    (s : UIState) (hpass : s.layout_pass = false)
    (hmiss : (nextElementS id s).1 = none) :
    (startGroupFull dir al sp id s).group.size = Vec2i.zero ∧
    (startGroupFull dir al sp id s).group.position = Vec2i.zero ∧
    (startGroupFull dir al sp id s).group.element_idx = s.elements.length - 1 ∧
    (startGroupFull dir al sp id s).group_stack = s.group :: s.group_stack ∧
    (startGroupFull dir al sp id s).elements = s.elements ∧
    (startGroupFull dir al sp id s).cursor = s.cursor := by
  have hm : nextElementS id { s with group_stack := s.group :: s.group_stack }
      = (none, { s with group_stack := s.group :: s.group_stack }) := by
    have : (nextElementS id { s with group_stack := s.group :: s.group_stack }).1 = none := by
      unfold nextElementS at hmiss ⊢
      simp only
      cases hscan : scanForward id (s.elements.drop s.cursor) s.cursor with
      | none => rfl
      | some p =>
        rw [hscan] at hmiss
        simp at hmiss
    exact nextElementS_miss _ _ this
  rw [hpass] at hm
  simp only [startGroupFull, hpass, Bool.false_eq_true, if_false, ite_false]
  rw [hm]
  simp [Group.init]

/-- Witness for C8 at the concrete render state with unmatched id 9. -/
theorem startGroup_unmatched_spec_witness :
    (startGroupFull Direction.vertical Alignment.center 0 9 c8s0).group.size = Vec2i.zero ∧
    (startGroupFull Direction.vertical Alignment.center 0 9 c8s0).group.position = Vec2i.zero ∧
    (startGroupFull Direction.vertical Alignment.center 0 9 c8s0).group.element_idx
      = c8s0.elements.length - 1 ∧
    (startGroupFull Direction.vertical Alignment.center 0 9 c8s0).group_stack
      = c8s0.group :: c8s0.group_stack ∧
    (startGroupFull Direction.vertical Alignment.center 0 9 c8s0).elements = c8s0.elements ∧
    (startGroupFull Direction.vertical Alignment.center 0 9 c8s0).cursor = c8s0.cursor :=
  startGroup_unmatched_spec Direction.vertical Alignment.center 0 9 c8s0 rfl (by decide)

/-! Claim C10: `StartRenderPass` on an empty element sequence. -/

/-- Claim C10: when the layout pass created no elements, `StartRenderPass`
returns with the state wholly unchanged — no sentinel is appended, the cursor,
root position and size are untouched, and the pass flag still says layout —
so a subsequent (render-pass) invocation of the description still runs in
measuring mode and its leaf widgets append elements to the sequence. -/
theorem startRenderPass_empty_noop (s : UIState)
    (h1 : s.group_stack = []) (h2 : s.elements = []) :
    startRenderPassS s = some s ∧
    (s.layout_pass = true → ∀ size id,
      (customElementS size id s).elements = s.elements ++ [Element.init size id]) := by
  constructor
  · simp [startRenderPassS, h1, h2]
  · intro hpass size id
    simp [customElementS, hpass, newElementS]

/-- Witness for C10 at the freshly constructed state (empty sequence), with a
concrete leaf appended by the re-run layout pass. -/
theorem startRenderPass_empty_noop_witness :
    startRenderPassS initState = some initState ∧
    (customElementS ⟨3, 4⟩ 7 initState).elements = initState.elements ++ [Element.init ⟨3, 4⟩ 7] :=
  ⟨(startRenderPass_empty_noop initState rfl rfl).1,
   (startRenderPass_empty_noop initState rfl rfl).2 rfl ⟨3, 4⟩ 7⟩

end FlatUIModel
